import Mathlib

/-!
Verification of the MeshLint core (analyzer, differ, continuous checker,
live-toggle operator) against its natural-language specification.

The definitions below are a shallow embedding of `__init__.py`:
pure Python functions become Lean functions, the mutable class-level state of
`MeshLintContinuousChecker` / `MeshLintVitalizer` becomes explicit state
records with step functions, and Python dicts become association lists with
last-write-wins lookup.  Checks observe a mesh through the same queries
bmesh offers (`len(face.verts)`, `edge.link_faces`, `vert.link_edges`,
`is_manifold`), so a mesh is modelled as the finite data those queries read.
-/

set_option maxRecDepth 10000

namespace MeshLint

/-- The element-kind iteration order `ELEM_TYPES = ['verts', 'edges', 'faces']`. -/
def ELEM_TYPES : List String := ["verts", "edges", "faces"]

/-- `COMPLAINT_TIMEOUT = 3` seconds. -/
def COMPLAINT_TIMEOUT : Nat := 3

/-- Sentinel stored into `lint['count']` for a disabled check: `'(N/A - disabled)'`. -/
def N_A_STR : String := "(N/A - disabled)"

/-- Initial placeholder count `'...'`. -/
def TBD_STR : String := "..."

/-- A bmesh vertex as the checks observe it: its index, the number of linked
edges (`len(vvv.link_edges)`) and the manifoldness flag (`vvv.is_manifold`). -/
structure BVert where
  index : Nat
  linkEdges : Nat
  isManifold : Bool
deriving DecidableEq

/-- A bmesh edge as the checks observe it: its index, the number of linked
faces (`len(eee.link_faces)`) and the manifoldness flag (`eee.is_manifold`). -/
structure BEdge where
  index : Nat
  linkFaces : Nat
  isManifold : Bool
deriving DecidableEq

/-- A bmesh face as the checks observe it: its index, its vertex list
(`fff.verts`, only the length is read) and its bounding edges (`fff.edges`). -/
structure BFace where
  index : Nat
  verts : List Nat
  edges : List BEdge
deriving DecidableEq

/-- The edit-mesh snapshot `self.b` plus the identity of the underlying mesh
data object `self.obj.data` (used by `topology_counts`). -/
structure Mesh where
  dataId : Nat
  verts : List BVert
  edges : List BEdge
  faces : List BFace
deriving DecidableEq

/-- The fingerprint returned by `MeshLintAnalyzer.topology_counts`. -/
structure TopologyCounts where
  dataId : Nat
  faces : Nat
  edges : Nat
  verts : Nat
deriving DecidableEq

/-- The `bad` dictionary a `check_*` method returns; a key a check does not
populate is read back as `bad.get(elemtype, [])`, i.e. as `[]`. -/
structure Bad where
  verts : List Nat := []
  edges : List Nat := []
  faces : List Nat := []
deriving DecidableEq

/-- `check_tris`: faces with `3 == len(fff.verts)`. -/
def check_tris (b : Mesh) : Bad :=
  { faces := (b.faces.filter (fun fff => decide (fff.verts.length = 3))).map BFace.index }

/-- `check_ngons`: faces with `4 < len(fff.verts)`. -/
def check_ngons (b : Mesh) : Bad :=
  { faces := (b.faces.filter (fun fff => decide (4 < fff.verts.length))).map BFace.index }

/-- `check_nonmanifold`: vertices and edges with `not elem.is_manifold`. -/
def check_nonmanifold (b : Mesh) : Bad :=
  { verts := (b.verts.filter (fun elem => !elem.isManifold)).map BVert.index,
    edges := (b.edges.filter (fun elem => !elem.isManifold)).map BEdge.index }

/-- `check_interior_faces`: faces with
`not any(3 > len(eee.link_faces) for eee in fff.edges)`. -/
def check_interior_faces (b : Mesh) : Bad :=
  { faces := (b.faces.filter
      (fun fff => !(fff.edges.any (fun eee => decide (3 > eee.linkFaces))))).map BFace.index }

/-- `check_three_poles`: vertices with `3 == len(vvv.link_edges)`. -/
def check_three_poles (b : Mesh) : Bad :=
  { verts := (b.verts.filter (fun vvv => decide (vvv.linkEdges = 3))).map BVert.index }

/-- `check_five_poles`: vertices with `5 == len(vvv.link_edges)`. -/
def check_five_poles (b : Mesh) : Bad :=
  { verts := (b.verts.filter (fun vvv => decide (vvv.linkEdges = 5))).map BVert.index }

/-- `check_sixplus_poles`: vertices with `5 < len(vvv.link_edges)`. -/
def check_sixplus_poles (b : Mesh) : Bad :=
  { verts := (b.verts.filter (fun vvv => decide (5 < vvv.linkEdges))).map BVert.index }

/-- One entry of `MeshLintAnalyzer.CHECKS` (the classifier itself is reached
by name through `runCheck`, mirroring the `getattr(type(self), 'check_' + symbol)`
dispatch). -/
structure CheckDef where
  symbol : String
  label : String
  default : Bool
deriving DecidableEq

/-- The registry `MeshLintAnalyzer.CHECKS`, in its append order. -/
def CHECKS : List CheckDef :=
  [ ⟨"tris", "Tris", true⟩,
    ⟨"ngons", "Ngons", true⟩,
    ⟨"nonmanifold", "Nonmanifold Elements", true⟩,
    ⟨"interior_faces", "Interior Faces", true⟩,
    ⟨"three_poles", "3-edge Poles", false⟩,
    ⟨"five_poles", "5-edge Poles", false⟩,
    ⟨"sixplus_poles", "6+-edge Poles", true⟩ ]

/-- The dynamic dispatch `check_method = getattr(type(self), 'check_' + symbol)`. -/
def runCheck (symbol : String) (b : Mesh) : Bad :=
  if symbol = "tris" then check_tris b
  else if symbol = "ngons" then check_ngons b
  else if symbol = "nonmanifold" then check_nonmanifold b
  else if symbol = "interior_faces" then check_interior_faces b
  else if symbol = "three_poles" then check_three_poles b
  else if symbol = "five_poles" then check_five_poles b
  else if symbol = "sixplus_poles" then check_sixplus_poles b
  else {}

/-- One entry of the list `find_problems` returns: the report dict
`{'lint': lint, 'verts': ..., 'edges': ..., 'faces': ...}` (of the lint only
the label is ever read back, by `make_labels_dict`). -/
structure Report where
  label : String
  verts : List Nat
  edges : List Nat
  faces : List Nat
deriving DecidableEq

/-- The value held by `lint['count']`: either a sentinel string
(`N_A_STR`, `TBD_STR`) or an integer. -/
inductive CountVal where
  | str (s : String)
  | num (n : Nat)
deriving DecidableEq

/-- The report built for one enabled check inside `find_problems`. -/
def reportOf (b : Mesh) (c : CheckDef) : Report :=
  let bad := runCheck c.symbol b
  { label := c.label, verts := bad.verts, edges := bad.edges, faces := bad.faces }

/-- The per-report problem count `lint['count']` accumulated over `ELEM_TYPES`. -/
def reportCount (r : Report) : Nat :=
  r.verts.length + r.edges.length + r.faces.length

/-- What one run of `find_problems` produces and mutates: the returned
`analysis` list, the `lint['count']` values written into the registry
(keyed by symbol), and `self.num_problems_found`. -/
structure FPResult where
  analysis : List Report
  counts : List (String × CountVal)
  numProblems : Nat
deriving DecidableEq

/-- The loop body of `find_problems` over a tail of the registry: a disabled
check stores the `N_A_STR` sentinel and is skipped (`continue`), an enabled
check runs its classifier and appends its report. -/
def fpGo (b : Mesh) (enabled : String → Bool) : List CheckDef → FPResult
  | [] => ⟨[], [], 0⟩
  | c :: rest =>
    let r := fpGo b enabled rest
    if enabled c.symbol then
      let rep := reportOf b c
      ⟨rep :: r.analysis, (c.symbol, CountVal.num (reportCount rep)) :: r.counts,
       reportCount rep + r.numProblems⟩
    else
      ⟨r.analysis, (c.symbol, CountVal.str N_A_STR) :: r.counts, r.numProblems⟩

/-- `MeshLintAnalyzer.find_problems`, with the scene's per-check booleans
abstracted as `enabled` over check symbols. -/
def find_problems (b : Mesh) (enabled : String → Bool) : FPResult :=
  fpGo b enabled CHECKS

/-- `MeshLintAnalyzer.none_analysis`: one all-empty row per registry check. -/
def none_analysis : List Report :=
  CHECKS.map (fun c => { label := c.label, verts := [], edges := [], faces := [] })

/-- `MeshLintAnalyzer.topology_counts`. -/
def topology_counts (b : Mesh) : TopologyCounts :=
  ⟨b.dataId, b.faces.length, b.edges.length, b.verts.length⟩

/-- The per-label value stored by `make_labels_dict`: the report dict with
its `'lint'` key deleted. -/
structure ElemLists where
  verts : List Nat
  edges : List Nat
  faces : List Nat
deriving DecidableEq

/-- The empty dict `{}` used as `dict_before.get(check_name, {})` default;
reading any elemtype from it yields `[]`. -/
def emptyElems : ElemLists := ⟨[], [], []⟩

/-- Copy a report and delete its `'lint'` entry. -/
def elemsOfReport (r : Report) : ElemLists := ⟨r.verts, r.edges, r.faces⟩

/-- The loop of `make_labels_dict` over a (non-`None`) analysis list. -/
def make_labels_dict_list (analysis : List Report) : List (String × ElemLists) :=
  analysis.map (fun r => (r.label, elemsOfReport r))

/-- `MeshLintContinuousChecker.make_labels_dict`, including the
`None is analysis` guard returning `{}`. -/
def make_labels_dict : Option (List Report) → List (String × ElemLists)
  | none => []
  | some l => make_labels_dict_list l

/-- Python-dict lookup on an insertion sequence: a later binding of the same
key overwrites an earlier one. -/
def dictLookup {α : Type} : List (String × α) → String → Option α
  | [], _ => none
  | (k, v) :: rest, key =>
    match dictLookup rest key with
    | some v2 => some v2
    | none => if k = key then some v else none

/-- Python's `string.rstrip('s')`: remove every trailing `'s'` character. -/
def rstrip_s (s : String) : String :=
  String.mk ((s.data.reverse.dropWhile (fun c => c = 's')).reverse)

/-- `depluralize(count=..., string=...)`. -/
def depluralize (count : Nat) (string : String) : String :=
  if count = 1 then rstrip_s string else string

/-- One iteration of the inner elemtype loop of `diff_analyses`: a fragment
is contributed exactly when `len(elem_list) > len(elem_list_before)`. -/
def fragNum (elemtype : String) (elemList elemListBefore : List Nat) : Option String :=
  if elemListBefore.length < elemList.length then
    some (toString (elemList.length - elemListBefore.length) ++ " " ++
      depluralize (elemList.length - elemListBefore.length) elemtype)
  else none

/-- The `check_elem_strings` list built for one check, iterating the report's
entries in their insertion order `verts`, `edges`, `faces`. -/
def checkElemStrings (now before : ElemLists) : List String :=
  (fragNum "verts" now.verts before.verts).toList ++
  (fragNum "edges" now.edges before.edges).toList ++
  (fragNum "faces" now.faces before.faces).toList

/-- One iteration of the outer `for check in MeshLintAnalyzer.CHECKS` loop of
`diff_analyses`: skip a label absent from `dict_now`, otherwise build the
check's fragment when it has growth. -/
def diffStep (dictBefore dictNow : List (String × ElemLists)) (c : CheckDef) : Option String :=
  match dictLookup dictNow c.label with
  | none => none
  | some report =>
    let reportBefore := (dictLookup dictBefore c.label).getD emptyElems
    let ces := checkElemStrings report reportBefore
    if ces = [] then none
    else some (c.label ++ ": " ++ String.intercalate ", " ces)

/-- The `report_strings` list accumulated by `diff_analyses` (after the
`None`-before substitution by `none_analysis`). -/
def diff_report_strings (before after : Option (List Report)) : List String :=
  CHECKS.filterMap
    (diffStep (make_labels_dict (some (before.getD none_analysis))) (make_labels_dict after))

/-- `MeshLintContinuousChecker.diff_analyses`. -/
def diff_analyses (before after : Option (List Report)) : Option String :=
  let rs := diff_report_strings before after
  if rs = [] then none else some ("Found " ++ String.intercalate ", " rs)

/-- The class-level mutable state of `MeshLintContinuousChecker` together
with the INFO-area header text that `announce` writes. -/
structure CheckerState where
  prevTopologyCounts : Option TopologyCounts
  prevAnalysis : Option (List Report)
  timeComplained : Option Nat
  header : Option String
deriving DecidableEq

/-- What one invocation of `MeshLintContinuousChecker.check` observes:
the current mode, the edit mesh, the enabled-check configuration and the
current clock value. -/
structure CheckInput where
  isEditMode : Bool
  mesh : Mesh
  enabled : String → Bool
  now : Nat

/-- The trailing timeout block of `check`: clear a stale announcement once
`COMPLAINT_TIMEOUT` has elapsed since it was emitted. -/
def timeoutStep (s : CheckerState) (now : Nat) : CheckerState :=
  match s.timeComplained with
  | some t =>
    if COMPLAINT_TIMEOUT < now - t then { s with header := none, timeComplained := none } else s
  | none => s

/-- `MeshLintContinuousChecker.check`, invoked on every depsgraph update
while the live toggle is on. -/
def checker_check (s : CheckerState) (inp : CheckInput) : CheckerState :=
  if !inp.isEditMode then s
  else
    let nowCounts := topology_counts inp.mesh
    let s1 :=
      if s.prevTopologyCounts = none ∨ ¬some nowCounts = s.prevTopologyCounts then
        let analysis := (find_problems inp.mesh inp.enabled).analysis
        let s2 :=
          match diff_analyses s.prevAnalysis (some analysis) with
          | some msg =>
            { s with header := some ("MeshLint: " ++ msg), timeComplained := some inp.now }
          | none => s
        { s2 with prevTopologyCounts := some nowCounts, prevAnalysis := some analysis }
      else s
    timeoutStep s1 inp.now

/-- The class-level state of the `MeshLintVitalizer` operator, plus whether
`meshlint_gbl_continuous_check` is currently in `depsgraph_update_post`. -/
structure VitalizerState where
  is_live : Bool
  subscribed : Bool
  text : String
  play_pause : String
deriving DecidableEq

/-- `MeshLintVitalizer.execute`: toggling off removes the handler and clears
the INFO header; toggling on appends the handler.  Neither direction touches
the checker's cached analysis, topology counts or complaint time. -/
def vitalizer_execute (v : VitalizerState) (c : CheckerState) :
    VitalizerState × CheckerState :=
  if v.is_live then
    (⟨false, false, "Continuous Check!", "PLAY"⟩, { c with header := none })
  else
    (⟨true, true, "Pause Checking...", "PAUSE"⟩, c)

/-- The label mapping a given (optional) analysis induces, with an absent
label reading as the empty dict. -/
def elemsAt (a : Option (List Report)) (label : String) : ElemLists :=
  (dictLookup (make_labels_dict a) label).getD emptyElems

/-- The count an analysis shows for one check label and one element kind. -/
def countAt (a : Option (List Report)) (label kind : String) : Nat :=
  if kind = "verts" then (elemsAt a label).verts.length
  else if kind = "edges" then (elemsAt a label).edges.length
  else if kind = "faces" then (elemsAt a label).faces.length
  else 0

/-- Modelled from the spec wording of the diff contract: one element kind of
one check contributes exactly when the after count strictly exceeds the
before count, the contributed delta being the difference. -/
def specKindPiece (kind : String) (afterCount beforeCount : Nat) : List String :=
  if beforeCount < afterCount then
    [toString (afterCount - beforeCount) ++ " " ++ depluralize (afterCount - beforeCount) kind]
  else []

/-- Modelled from the spec wording of the diff contract: the per-check
fragment `'<Label>: <N1> <kind1>, ...'`, a label missing in before (or in
after) being treated as empty; a check with no growing kind yields nothing. -/
def specFragment (before after : Option (List Report)) (c : CheckDef) : Option String :=
  let pieces :=
    specKindPiece "verts" (countAt after c.label "verts") (countAt before c.label "verts") ++
    specKindPiece "edges" (countAt after c.label "edges") (countAt before c.label "edges") ++
    specKindPiece "faces" (countAt after c.label "faces") (countAt before c.label "faces")
  if pieces = [] then none
  else some (c.label ++ ": " ++ String.intercalate ", " pieces)

/-- Modelled from the spec wording of the diff contract: no contributing
check gives `none`, otherwise `'Found '` followed by the per-check fragments
joined by `', '`. -/
def diffSpec (before after : Option (List Report)) : Option String :=
  let frags := CHECKS.filterMap (specFragment before after)
  if frags = [] then none else some ("Found " ++ String.intercalate ", " frags)

/-- Modelled from the claim wording for the depluralizer: strip one single
trailing `'s'` when present. -/
def stripOneTrailingS (s : String) : String :=
  if s.data.getLast? = some 's' then String.mk s.data.dropLast else s

/-- The registry's display labels, in registry order. -/
def registryLabels : List String := CHECKS.map CheckDef.label

/-- A concrete empty mesh used by witnesses. -/
def exMesh : Mesh := ⟨0, [], [], []⟩

/-- An everything-disabled configuration. -/
def allDisabled : String → Bool := fun _ => false

/-- An everything-enabled configuration. -/
def allEnabled : String → Bool := fun _ => true

/-- A concrete one-report analysis used by witnesses (the shape of the
`'When there was no previous analysis'` unit test). -/
def exAfter : List Report := [⟨"Tris", [1, 2, 3, 4], [], []⟩]

/-- A concrete checker state with every cache populated. -/
def exCheckerState : CheckerState :=
  { prevTopologyCounts := some ⟨1, 6, 12, 8⟩,
    prevAnalysis := some [⟨"Tris", [0], [], []⟩],
    timeComplained := some 5,
    header := some "MeshLint: Found Tris: 1 vert" }

/-- A concrete checker state with nothing cached yet. -/
def exStateEmpty : CheckerState := ⟨none, none, none, none⟩

/-- The vitalizer state while live monitoring is on. -/
def exVitalizerLive : VitalizerState := ⟨true, true, "Pause Checking...", "PAUSE"⟩

/-- A concrete notification context: edit mode, empty mesh, all checks on. -/
def exInput : CheckInput := ⟨true, exMesh, allEnabled, 0⟩

/-- The analysis list built by the `find_problems` loop: exactly the enabled
checks' reports, in registry order. -/
theorem fpGo_analysis (b : Mesh) (enabled : String → Bool) :
    ∀ cs : List CheckDef,
      (fpGo b enabled cs).analysis = (cs.filter (fun c => enabled c.symbol)).map (reportOf b) := by
  intro cs
  induction cs with
  | nil => rfl
  | cons c rest ih =>
    cases h : enabled c.symbol <;> simp [fpGo, h, ih, List.filter_cons]

/-- `num_problems_found` accumulates exactly the per-report counts of the
reports appended to the analysis. -/
theorem fpGo_num (b : Mesh) (enabled : String → Bool) :
    ∀ cs : List CheckDef,
      (fpGo b enabled cs).numProblems = (((fpGo b enabled cs).analysis).map reportCount).sum := by
  intro cs
  induction cs with
  | nil => rfl
  | cons c rest ih =>
    cases h : enabled c.symbol <;> simp [fpGo, h, ih]

/-- The `lint['count']` values written by the `find_problems` loop. -/
theorem fpGo_counts (b : Mesh) (enabled : String → Bool) :
    ∀ cs : List CheckDef,
      (fpGo b enabled cs).counts = cs.map (fun c => (c.symbol,
        if enabled c.symbol then CountVal.num (reportCount (reportOf b c))
        else CountVal.str N_A_STR)) := by
  intro cs
  induction cs with
  | nil => rfl
  | cons c rest ih =>
    cases h : enabled c.symbol <;> simp [fpGo, h, ih]

/-- Restatement of `fpGo_analysis` for `find_problems`. -/
theorem find_problems_analysis (b : Mesh) (enabled : String → Bool) :
    (find_problems b enabled).analysis =
      (CHECKS.filter (fun c => enabled c.symbol)).map (reportOf b) :=
  fpGo_analysis b enabled CHECKS

/-- Restatement of `fpGo_num` for `find_problems`. -/
theorem find_problems_num (b : Mesh) (enabled : String → Bool) :
    (find_problems b enabled).numProblems =
      (((find_problems b enabled).analysis).map reportCount).sum :=
  fpGo_num b enabled CHECKS

/-- Restatement of `fpGo_counts` for `find_problems`. -/
theorem find_problems_counts (b : Mesh) (enabled : String → Bool) :
    (find_problems b enabled).counts = CHECKS.map (fun c => (c.symbol,
      if enabled c.symbol then CountVal.num (reportCount (reportOf b c))
      else CountVal.str N_A_STR)) :=
  fpGo_counts b enabled CHECKS

/-- Looking a key up in a dict none of whose entries carry that key. -/
theorem dictLookup_eq_none {α : Type} :
    ∀ (l : List (String × α)) (key : String), (∀ p ∈ l, p.1 ≠ key) → dictLookup l key = none := by
  intro l key h
  induction l with
  | nil => rfl
  | cons p rest ih =>
    obtain ⟨k, v⟩ := p
    simp only [dictLookup]
    rw [ih (fun q hq => h q (List.mem_cons_of_mem _ hq))]
    have hk : k ≠ key := h (k, v) (List.mem_cons_self _ _)
    simp [hk]

/-- Looking up the entry a key-distinct tabulation holds for a member. -/
theorem dictLookup_map_nodup {α : Type} (f : CheckDef → α) :
    ∀ (cs : List CheckDef) (c : CheckDef), c ∈ cs → (cs.map CheckDef.symbol).Nodup →
      dictLookup (cs.map (fun d => (d.symbol, f d))) c.symbol = some (f c) := by
  intro cs
  induction cs with
  | nil => intro c hc; simp at hc
  | cons d rest ih =>
    intro c hc hnd
    have hnd' : (∀ x ∈ rest, ¬x.symbol = d.symbol) ∧ (rest.map CheckDef.symbol).Nodup := by
      simpa using hnd
    simp only [List.map_cons, dictLookup]
    rcases List.mem_cons.mp hc with rfl | hmem
    · rw [dictLookup_eq_none]
      · simp
      · intro p hp hkey
        obtain ⟨e, he, rfl⟩ := List.mem_map.mp hp
        exact hnd'.1 e he hkey
    · rw [ih c hmem hnd'.2]

/-- `filterMap` only looks at the function's values on the list. -/
theorem filterMapCongr {α β : Type} :
    ∀ (l : List α) (f g : α → Option β), (∀ x ∈ l, f x = g x) → l.filterMap f = l.filterMap g := by
  intro l f g h
  induction l with
  | nil => rfl
  | cons a rest ih =>
    simp only [List.filterMap_cons]
    rw [h a (List.mem_cons_self _ _), ih (fun x hx => h x (List.mem_cons_of_mem _ hx))]

/-- Every registry label is present in the `none_analysis` dict, mapped to
the all-empty row. -/
theorem noneAnalysis_lookup :
    ∀ c ∈ CHECKS, dictLookup (make_labels_dict_list none_analysis) c.label = some emptyElems := by
  decide

/-- The before-side value `diff_analyses` reads for a registry check equals
the label mapping of the un-substituted `before` argument: the
`none_analysis` baseline and the `.get(label, {})` default agree on reading
an absent analysis as empty. -/
theorem before_dict_bridge (before : Option (List Report)) (c : CheckDef) (hc : c ∈ CHECKS) :
    (dictLookup (make_labels_dict (some (before.getD none_analysis))) c.label).getD emptyElems
      = elemsAt before c.label := by
  cases before with
  | some l => rfl
  | none =>
    show (dictLookup (make_labels_dict_list none_analysis) c.label).getD emptyElems = _
    rw [noneAnalysis_lookup c hc]
    rfl

/-- Reading the `verts` count. -/
theorem countAt_verts (a : Option (List Report)) (l : String) :
    countAt a l "verts" = (elemsAt a l).verts.length := rfl

/-- Reading the `edges` count. -/
theorem countAt_edges (a : Option (List Report)) (l : String) :
    countAt a l "edges" = (elemsAt a l).edges.length := by
  simp [countAt]

/-- Reading the `faces` count. -/
theorem countAt_faces (a : Option (List Report)) (l : String) :
    countAt a l "faces" = (elemsAt a l).faces.length := by
  simp [countAt]

/-- The code's inner elemtype loop produces exactly the spec-side kind
pieces, in the `verts`, `edges`, `faces` order. -/
theorem checkElemStrings_pieces (now bef : ElemLists) :
    checkElemStrings now bef =
      specKindPiece "verts" now.verts.length bef.verts.length ++
      specKindPiece "edges" now.edges.length bef.edges.length ++
      specKindPiece "faces" now.faces.length bef.faces.length := by
  unfold checkElemStrings fragNum specKindPiece
  by_cases h1 : bef.verts.length < now.verts.length <;>
    by_cases h2 : bef.edges.length < now.edges.length <;>
      by_cases h3 : bef.faces.length < now.faces.length <;>
        simp [h1, h2, h3]

/-- Mirror of the repository unit test `test_depluralize`. -/
theorem unittest_depluralize :
    depluralize 1 "foos" = "foo" ∧ depluralize 2 "foos" = "foos" ∧
    depluralize 1 "FOOS" = "FOOS" ∧ depluralize 1 "foxes" = "foxe" ∧
    depluralize 1 "Blueberries" = "Blueberrie" ∧ depluralize 1 "sheep" = "sheep" := by
  decide

/-- Mirror of the repository unit test `test_make_labels_dict`. -/
theorem unittest_make_labels_dict :
    make_labels_dict (some [⟨"Label One", [], [1, 2], []⟩, ⟨"Label Two", [5], [], [3]⟩]) =
      [("Label One", ⟨[], [1, 2], []⟩), ("Label Two", ⟨[5], [], [3]⟩)] ∧
    make_labels_dict none = [] := by
  decide

/-- Mirror of the first case of the unit test `test_comparison`:
two `none_analysis()`s diff to nothing. -/
theorem unittest_comparison_none :
    diff_analyses (some none_analysis) (some none_analysis) = none := by
  decide

/-- Mirror of the second case of `test_comparison`: no previous analysis. -/
theorem unittest_comparison_first_run :
    diff_analyses none (some [⟨"Tris", [1, 2, 3, 4], [], []⟩]) =
      some "Found Tris: 4 verts" := by
  decide

/-- Mirror of the third case of `test_comparison`, including the
non-registry label `CheckB` that never contributes. -/
theorem unittest_comparison_complex :
    diff_analyses
      (some [⟨"Tris", [], [1, 4], []⟩, ⟨"CheckB", [], [2, 3], []⟩,
             ⟨"Nonmanifold Elements", [], [], [2, 3]⟩])
      (some [⟨"Tris", [], [1, 4, 5, 6], []⟩, ⟨"CheckB", [], [2, 3], []⟩,
             ⟨"Nonmanifold Elements", [1, 2, 3, 4], [], [1, 2, 3, 5]⟩]) =
      some "Found Tris: 2 edges, Nonmanifold Elements: 4 verts, 2 faces" := by
  decide

/-- Mirror of the fourth case of `test_comparison`: the user picked a
different set of checks since the last run. -/
theorem unittest_comparison_checks_changed :
    diff_analyses
      (some [⟨"6+-edge Poles", [], [2, 3], []⟩, ⟨"Nonmanifold Elements", [], [2, 3], []⟩])
      (some [⟨"Tris", [55, 56], [], []⟩, ⟨"Ngons", [], [], [5, 6]⟩,
             ⟨"Nonmanifold Elements", [], [2, 3, 4, 5], []⟩]) =
      some "Found Tris: 2 verts, Ngons: 2 faces, Nonmanifold Elements: 2 edges" := by
  decide

/-- Claim C1 counterexample: with every check disabled, `find_problems`
returns an empty analysis rather than one (sentinel) report per registry
check — disabled checks are skipped by `continue`, so the Analysis does not
contain one CheckReport for every check definition in the registry. -/
theorem c1_counterexample :
    (find_problems exMesh allDisabled).analysis.length ≠ CHECKS.length := by
  decide

/-- Claim C1 (amended): the Analysis returned by the Analyzer contains one
CheckReport for each *enabled* check, in registry order, carrying its
classifier's BadElements; a disabled check contributes no report at all —
its registry count is merely set to the `N_A_STR` sentinel — while an
enabled check's registry count is its report's element count. -/
theorem c1_amended (b : Mesh) (enabled : String → Bool) :
    (find_problems b enabled).analysis =
      (CHECKS.filter (fun c => enabled c.symbol)).map (reportOf b) ∧
    (∀ c ∈ CHECKS, enabled c.symbol = false →
      dictLookup (find_problems b enabled).counts c.symbol = some (CountVal.str N_A_STR)) ∧
    (∀ c ∈ CHECKS, enabled c.symbol = true →
      dictLookup (find_problems b enabled).counts c.symbol =
        some (CountVal.num (reportCount (reportOf b c)))) := by
  refine ⟨find_problems_analysis b enabled, ?_, ?_⟩
  · intro c hc hdis
    rw [find_problems_counts b enabled,
      dictLookup_map_nodup _ CHECKS c hc (by decide), hdis]
    simp
  · intro c hc hen
    rw [find_problems_counts b enabled,
      dictLookup_map_nodup _ CHECKS c hc (by decide), hen]
    simp

/-- Witness for the amended C1 at a concrete mesh and configuration. -/
theorem c1_amended_witness :
    (find_problems exMesh allDisabled).analysis =
      (CHECKS.filter (fun c => allDisabled c.symbol)).map (reportOf exMesh) ∧
    dictLookup (find_problems exMesh allDisabled).counts "tris" =
      some (CountVal.str N_A_STR) :=
  ⟨(c1_amended exMesh allDisabled).1,
   (c1_amended exMesh allDisabled).2.1 ⟨"tris", "Tris", true⟩ (by decide) rfl⟩

/-- Claim C3: the aggregate `num_problems_found` equals the sum of the
per-report counts of the (enabled) reports in the analysis; and when every
check is disabled the total is 0 and every registry check's recorded count
is the disabled sentinel `N_A_STR`. -/
theorem c3_total_count (b : Mesh) (enabled : String → Bool) :
    (find_problems b enabled).numProblems =
      (((find_problems b enabled).analysis).map reportCount).sum ∧
    ((∀ sym : String, enabled sym = false) →
      (find_problems b enabled).numProblems = 0 ∧
      ∀ c ∈ CHECKS, dictLookup (find_problems b enabled).counts c.symbol =
        some (CountVal.str N_A_STR)) := by
  refine ⟨find_problems_num b enabled, fun hall => ⟨?_, ?_⟩⟩
  · rw [find_problems_num b enabled, find_problems_analysis b enabled]
    have hnil : CHECKS.filter (fun c => enabled c.symbol) = [] := by
      rw [List.filter_eq_nil_iff]
      intro c _
      simp [hall c.symbol]
    rw [hnil]
    rfl
  · intro c hc
    rw [find_problems_counts b enabled,
      dictLookup_map_nodup _ CHECKS c hc (by decide), hall c.symbol]
    simp

/-- Witness for C3 at a concrete mesh with everything disabled. -/
theorem c3_witness :
    (find_problems exMesh allDisabled).numProblems = 0 ∧
    dictLookup (find_problems exMesh allDisabled).counts "tris" =
      some (CountVal.str N_A_STR) :=
  ⟨((c3_total_count exMesh allDisabled).2 (fun _ => rfl)).1,
   ((c3_total_count exMesh allDisabled).2 (fun _ => rfl)).2 ⟨"tris", "Tris", true⟩ (by decide)⟩

/-- For a registry check, one step of the `diff_analyses` loop computes
exactly the spec-side fragment: skipping a label absent from `dict_now`
coincides with treating it as empty, and the `none_analysis` baseline
coincides with reading an absent before-label as empty. -/
theorem diffStep_eq_specFragment (before after : Option (List Report)) (c : CheckDef)
    (hc : c ∈ CHECKS) :
    diffStep (make_labels_dict (some (before.getD none_analysis))) (make_labels_dict after) c
      = specFragment before after c := by
  cases hdn : dictLookup (make_labels_dict after) c.label with
  | none =>
    have ha : elemsAt after c.label = emptyElems := by
      unfold elemsAt
      rw [hdn]
      rfl
    simp only [diffStep, hdn, specFragment, countAt_verts, countAt_edges, countAt_faces, ha]
    simp [specKindPiece, emptyElems]
  | some rep =>
    have ha : elemsAt after c.label = rep := by
      unfold elemsAt
      rw [hdn]
      rfl
    simp only [diffStep, hdn]
    rw [before_dict_bridge before c hc, checkElemStrings_pieces]
    simp only [specFragment, countAt_verts, countAt_edges, countAt_faces, ha]

/-- Claim C2: the Differ is exactly the spec-described function — per
registry check and per element kind a contribution exactly when the after
count strictly exceeds the before count, with delta the count difference, a
label missing in before treated as empty; checks with no growing kind are
omitted; no contribution yields `none`, otherwise `'Found '` followed by the
per-check fragments joined by `', '` (kind nouns passing through the
depluralizer). -/
theorem c2_diff_matches_spec (before after : Option (List Report)) :
    diff_analyses before after = diffSpec before after := by
  have h : diff_report_strings before after = CHECKS.filterMap (specFragment before after) :=
    filterMapCongr CHECKS _ _ (fun c hc => diffStep_eq_specFragment before after c hc)
  simp only [diff_analyses, diffSpec, h]

/-- A registry check with strict growth in some kind contributes a fragment
headed by its label. -/
theorem diffStep_of_growth (before after : Option (List Report)) (c : CheckDef)
    (hc : c ∈ CHECKS)
    (hg : ∃ k ∈ ELEM_TYPES, countAt before c.label k < countAt after c.label k) :
    ∃ rest : String,
      diffStep (make_labels_dict (some (before.getD none_analysis))) (make_labels_dict after) c
        = some (c.label ++ ": " ++ rest) := by
  obtain ⟨k, hk, hklt⟩ := hg
  cases hdn : dictLookup (make_labels_dict after) c.label with
  | none =>
    exfalso
    have ha : elemsAt after c.label = emptyElems := by
      unfold elemsAt
      rw [hdn]
      rfl
    simp only [ELEM_TYPES, List.mem_cons, List.not_mem_nil, or_false] at hk
    rcases hk with rfl | rfl | rfl <;>
      simp [countAt_verts, countAt_edges, countAt_faces, ha, emptyElems] at hklt
  | some rep =>
    have ha : elemsAt after c.label = rep := by
      unfold elemsAt
      rw [hdn]
      rfl
    have hne : checkElemStrings rep (elemsAt before c.label) ≠ [] := by
      rw [checkElemStrings_pieces]
      simp only [ELEM_TYPES, List.mem_cons, List.not_mem_nil, or_false] at hk
      rcases hk with rfl | rfl | rfl
      · rw [countAt_verts, countAt_verts, ha] at hklt
        simp [specKindPiece, hklt]
      · rw [countAt_edges, countAt_edges, ha] at hklt
        simp [specKindPiece, hklt, List.append_eq_nil]
      · rw [countAt_faces, countAt_faces, ha] at hklt
        simp [specKindPiece, hklt, List.append_eq_nil]
    refine ⟨String.intercalate ", " (checkElemStrings rep (elemsAt before c.label)), ?_⟩
    simp only [diffStep, hdn]
    rw [before_dict_bridge before c hc, if_neg hne]

/-- Claim C4: if `after` dominates `before` pointwise on every registry
check and element kind, with at least one strict increase, the diff is
non-none — it is the `'Found '` message over the accumulated fragments —
and every check with a strict increase is mentioned by a fragment headed by
its label. -/
theorem c4_monotonicity (before after : Option (List Report))
    (hle : ∀ c ∈ CHECKS, ∀ k ∈ ELEM_TYPES, countAt before c.label k ≤ countAt after c.label k)
    (hlt : ∃ c ∈ CHECKS, ∃ k ∈ ELEM_TYPES, countAt before c.label k < countAt after c.label k) :
    diff_analyses before after =
      some ("Found " ++ String.intercalate ", " (diff_report_strings before after)) ∧
    ∀ c ∈ CHECKS, (∃ k ∈ ELEM_TYPES, countAt before c.label k < countAt after c.label k) →
      ∃ rest : String, (c.label ++ ": " ++ rest) ∈ diff_report_strings before after := by
  obtain ⟨c0, hc0, hg0⟩ := hlt
  obtain ⟨rest0, hfrag0⟩ := diffStep_of_growth before after c0 hc0 hg0
  have hmem0 : (c0.label ++ ": " ++ rest0) ∈ diff_report_strings before after :=
    List.mem_filterMap.mpr ⟨c0, hc0, hfrag0⟩
  constructor
  · simp only [diff_analyses]
    rw [if_neg (List.ne_nil_of_mem hmem0)]
  · intro c hc hg
    obtain ⟨rest, hfrag⟩ := diffStep_of_growth before after c hc hg
    exact ⟨rest, List.mem_filterMap.mpr ⟨c, hc, hfrag⟩⟩

/-- Witness for C4: both hypotheses hold, and the conclusion follows, at the
concrete pair (no previous analysis, one four-vert Tris report). -/
theorem c4_monotonicity_witness :
    ((∀ c ∈ CHECKS, ∀ k ∈ ELEM_TYPES,
        countAt none c.label k ≤ countAt (some exAfter) c.label k) ∧
     (∃ c ∈ CHECKS, ∃ k ∈ ELEM_TYPES,
        countAt none c.label k < countAt (some exAfter) c.label k)) ∧
    diff_analyses none (some exAfter) =
      some ("Found " ++ String.intercalate ", " (diff_report_strings none (some exAfter))) ∧
    ∀ c ∈ CHECKS,
      (∃ k ∈ ELEM_TYPES, countAt none c.label k < countAt (some exAfter) c.label k) →
      ∃ rest : String, (c.label ++ ": " ++ rest) ∈ diff_report_strings none (some exAfter) :=
  ⟨⟨by decide, by decide⟩, c4_monotonicity none (some exAfter) (by decide) (by decide)⟩

/-- `not any(3 > len(eee.link_faces))` is `all(2 < len(eee.link_faces))`. -/
theorem not_any_lt_three (l : List BEdge) :
    (!(l.any (fun eee => decide (3 > eee.linkFaces)))) =
      l.all (fun eee => decide (2 < eee.linkFaces)) := by
  induction l with
  | nil => rfl
  | cons e rest ih =>
    simp only [List.any_cons, List.all_cons, Bool.not_or, ih]
    congr 1
    by_cases h : 3 > e.linkFaces
    · simp [h, show ¬(2 < e.linkFaces) by omega]
    · simp [h, show 2 < e.linkFaces by omega]

/-- Claim C7: `check_interior_faces` flags exactly the faces all of whose
bounding edges have more than 2 incident faces — equivalently, the faces
having no bounding edge with fewer than 3 incident faces. -/
theorem c7_interior_faces (b : Mesh) :
    (check_interior_faces b).faces =
      (b.faces.filter
        (fun fff => fff.edges.all (fun eee => decide (2 < eee.linkFaces)))).map BFace.index ∧
    (check_interior_faces b).faces =
      (b.faces.filter
        (fun fff => !(fff.edges.any (fun eee => decide (eee.linkFaces < 3))))).map BFace.index := by
  constructor
  · unfold check_interior_faces
    rw [show (fun fff : BFace => !(fff.edges.any (fun eee => decide (3 > eee.linkFaces)))) =
        (fun fff : BFace => fff.edges.all (fun eee => decide (2 < eee.linkFaces))) from
      funext (fun fff => not_any_lt_three fff.edges)]
  · rfl

/-- Claim C8 counterexample: on a noun with a doubled trailing `'s'` the
code's `rstrip('s')` removes both, so the claimed strip-one-trailing-`'s'`
description fails at delta 1 and input `"mess"` (code: `"me"`, claim:
`"mes"`). -/
theorem c8_counterexample : depluralize 1 "mess" ≠ stripOneTrailingS "mess" := by
  decide

/-- The head surviving a `dropWhile` fails the predicate. -/
theorem head_dropWhile_false (p : Char → Bool) :
    ∀ (l : List Char) (a : Char), (l.dropWhile p).head? = some a → p a = false := by
  intro l
  induction l with
  | nil => intro a h; simp [List.dropWhile] at h
  | cons x xs ih =>
    intro a h
    cases hx : p x with
    | true =>
      rw [List.dropWhile_cons_of_pos hx] at h
      exact ih a h
    | false =>
      rw [List.dropWhile_cons_of_neg (by simp [hx])] at h
      simp only [List.head?_cons, Option.some.injEq] at h
      rw [← h]
      exact hx

/-- A `takeWhile` of the equals-`'s'` predicate is a replicate of `'s'`. -/
theorem takeWhile_s_replicate :
    ∀ l : List Char, ∃ n : Nat,
      l.takeWhile (fun c => decide (c = 's')) = List.replicate n 's' := by
  intro l
  induction l with
  | nil => exact ⟨0, rfl⟩
  | cons x xs ih =>
    by_cases hx : x = 's'
    · obtain ⟨n, hn⟩ := ih
      refine ⟨n + 1, ?_⟩
      rw [List.takeWhile_cons_of_pos (by simp [hx]), hn, hx, List.replicate_succ]
    · refine ⟨0, ?_⟩
      rw [List.takeWhile_cons_of_neg (by simp [hx])]
      rfl

/-- `rstrip('s')` leaves a string not ending in `'s'` unchanged. -/
theorem rstrip_s_of_not_ends (s : String) (h : s.data.getLast? ≠ some 's') :
    rstrip_s s = s := by
  unfold rstrip_s
  have hdw : s.data.reverse.dropWhile (fun c => decide (c = 's')) = s.data.reverse := by
    cases hrev : s.data.reverse with
    | nil => rfl
    | cons x xs =>
      have hx : x ≠ 's' := by
        intro hxs
        apply h
        rw [← List.head?_reverse, hrev, hxs]
        rfl
      rw [List.dropWhile_cons_of_neg (by simp [hx])]
  rw [hdw, List.reverse_reverse]

/-- Claim C8 (amended): a delta other than 1 leaves the noun unchanged; a
noun not ending in `'s'` is unchanged regardless of delta; a delta of 1
strips *all* trailing `'s'` characters — the result no longer ends in `'s'`
and the original is the result followed by some run of `'s'`. -/
theorem c8_amended (count : Nat) (s : String) :
    (count ≠ 1 → depluralize count s = s) ∧
    (s.data.getLast? ≠ some 's' → depluralize count s = s) ∧
    (count = 1 →
      (depluralize count s).data.getLast? ≠ some 's' ∧
      ∃ n : Nat, s.data = (depluralize count s).data ++ List.replicate n 's') := by
  refine ⟨fun hne => by simp [depluralize, hne], fun hlast => ?_, fun hone => ?_⟩
  · by_cases hone : count = 1
    · rw [depluralize, if_pos hone]
      exact rstrip_s_of_not_ends s hlast
    · simp [depluralize, hone]
  · rw [depluralize, if_pos hone]
    constructor
    · intro hlast
      rw [show (rstrip_s s).data =
          (s.data.reverse.dropWhile (fun c => decide (c = 's'))).reverse from rfl] at hlast
      rw [List.getLast?_reverse] at hlast
      have := head_dropWhile_false (fun c => decide (c = 's')) s.data.reverse 's' hlast
      simp at this
    · obtain ⟨n, hn⟩ := takeWhile_s_replicate s.data.reverse
      refine ⟨n, ?_⟩
      rw [show (rstrip_s s).data =
          (s.data.reverse.dropWhile (fun c => decide (c = 's'))).reverse from rfl]
      have hsplit := List.takeWhile_append_dropWhile
        (p := fun c => decide (c = 's')) (l := s.data.reverse)
      calc s.data = s.data.reverse.reverse := (List.reverse_reverse _).symm
        _ = (s.data.reverse.takeWhile (fun c => decide (c = 's')) ++
              s.data.reverse.dropWhile (fun c => decide (c = 's'))).reverse := by rw [hsplit]
        _ = (s.data.reverse.dropWhile (fun c => decide (c = 's'))).reverse ++
              (s.data.reverse.takeWhile (fun c => decide (c = 's'))).reverse := by
            rw [List.reverse_append]
        _ = (s.data.reverse.dropWhile (fun c => decide (c = 's'))).reverse ++
              List.replicate n 's' := by rw [hn, List.reverse_replicate]

/-- Witness for the amended C8 at concrete nouns and deltas. -/
theorem c8_amended_witness :
    depluralize 2 "foos" = "foos" ∧
    depluralize 3 "sheep" = "sheep" ∧
    (depluralize 1 "glasses").data.getLast? ≠ some 's' ∧
    ∃ n : Nat, "glasses".data = (depluralize 1 "glasses").data ++ List.replicate n 's' :=
  ⟨(c8_amended 2 "foos").1 (by decide),
   (c8_amended 3 "sheep").2.1 (by decide),
   ((c8_amended 1 "glasses").2.2 rfl).1,
   ((c8_amended 1 "glasses").2.2 rfl).2⟩

/-- Filtering an analysis by a predicate that holds on every report carrying
a given label leaves that label's lookup unchanged. -/
theorem dictLookup_filter (p : Report → Bool) :
    ∀ (l : List Report) (key : String), (∀ r ∈ l, r.label = key → p r = true) →
      dictLookup (make_labels_dict_list (l.filter p)) key =
        dictLookup (make_labels_dict_list l) key := by
  intro l key h
  induction l with
  | nil => rfl
  | cons r rest ih =>
    have ih' := ih (fun q hq hql => h q (List.mem_cons_of_mem _ hq) hql)
    by_cases hp : p r = true
    · rw [List.filter_cons_of_pos hp]
      simp only [make_labels_dict_list, List.map_cons, dictLookup]
      rw [show make_labels_dict_list (rest.filter p) =
          (rest.filter p).map (fun r => (r.label, elemsOfReport r)) from rfl] at ih'
      rw [show make_labels_dict_list rest =
          rest.map (fun r => (r.label, elemsOfReport r)) from rfl] at ih'
      rw [ih']
    · have hrl : r.label ≠ key := fun hEq => hp (h r (List.mem_cons_self _ _) hEq)
      rw [List.filter_cons_of_neg (by simpa using hp)]
      show dictLookup (make_labels_dict_list (rest.filter p)) key = _
      rw [ih']
      simp only [make_labels_dict_list, List.map_cons, dictLookup]
      cases hlk : dictLookup (rest.map fun r => (r.label, elemsOfReport r)) key with
      | some w => rfl
      | none => simp [hrl]

/-- A successful dict lookup means the key occurs among the labels. -/
theorem dictLookup_mem_labels :
    ∀ (l : List Report) (key : String) (v : ElemLists),
      dictLookup (make_labels_dict_list l) key = some v → key ∈ l.map Report.label := by
  intro l
  induction l with
  | nil => intro key v h; simp [make_labels_dict_list, dictLookup] at h
  | cons r rest ih =>
    intro key v h
    simp only [make_labels_dict_list, List.map_cons, dictLookup] at h
    cases hlk : dictLookup (rest.map fun r => (r.label, elemsOfReport r)) key with
    | some w =>
      rw [hlk] at h
      exact List.mem_cons_of_mem _ (ih key w hlk)
    | none =>
      rw [hlk] at h
      by_cases hr : r.label = key
      · rw [List.map_cons, ← hr]
        exact List.mem_cons_self _ _
      · simp [hr] at h

/-- Claim C9: the Differ consults only registry labels — dropping every
non-registry report from `after` changes nothing, and dropping from
`before` every report whose label is non-registry or absent from `after`
changes nothing (a label that disappears contributes no text). -/
theorem c9_registry_only (before after : List Report) :
    diff_analyses (some before)
        (some (after.filter (fun r => decide (r.label ∈ registryLabels)))) =
      diff_analyses (some before) (some after) ∧
    diff_analyses
        (some (before.filter (fun r =>
          decide (r.label ∈ registryLabels ∧ r.label ∈ after.map Report.label))))
        (some after) =
      diff_analyses (some before) (some after) := by
  constructor
  · have h : diff_report_strings (some before)
        (some (after.filter (fun r => decide (r.label ∈ registryLabels)))) =
        diff_report_strings (some before) (some after) := by
      simp only [diff_report_strings, Option.getD_some]
      refine filterMapCongr CHECKS _ _ (fun c hc => ?_)
      have hl : dictLookup
          (make_labels_dict (some (after.filter (fun r => decide (r.label ∈ registryLabels)))))
            c.label =
          dictLookup (make_labels_dict (some after)) c.label := by
        refine dictLookup_filter _ after c.label (fun r _ hrl => ?_)
        simp only [decide_eq_true_eq]
        rw [hrl]
        exact List.mem_map_of_mem CheckDef.label hc
      simp only [diffStep, hl]
    simp only [diff_analyses, h]
  · have h : diff_report_strings
        (some (before.filter (fun r =>
          decide (r.label ∈ registryLabels ∧ r.label ∈ after.map Report.label))))
          (some after) =
        diff_report_strings (some before) (some after) := by
      simp only [diff_report_strings, Option.getD_some]
      refine filterMapCongr CHECKS _ _ (fun c hc => ?_)
      cases hdn : dictLookup (make_labels_dict (some after)) c.label with
      | none => simp only [diffStep, hdn]
      | some rep =>
        have hmem : c.label ∈ after.map Report.label :=
          dictLookup_mem_labels after c.label rep hdn
        have hb : dictLookup
            (make_labels_dict (some (before.filter (fun r =>
              decide (r.label ∈ registryLabels ∧ r.label ∈ after.map Report.label)))))
              c.label =
            dictLookup (make_labels_dict (some before)) c.label := by
          refine dictLookup_filter _ before c.label (fun r _ hrl => ?_)
          simp only [decide_eq_true_eq]
          rw [hrl]
          exact ⟨List.mem_map_of_mem CheckDef.label hc, hmem⟩
        simp only [diffStep, hdn, hb]
    simp only [diff_analyses, h]

/-- Claim C10: an absent `after` analysis is converted by
`make_labels_dict` into an empty label mapping, so no registry check is
found in `dict_now` and the diff of any `before` against `None` is `none`. -/
theorem c10_absent_after :
    make_labels_dict none = [] ∧
    ∀ before : Option (List Report), diff_analyses before none = none := by
  exact ⟨rfl, fun before => rfl⟩

/-- Claim C5 counterexample: toggling the live monitor off from the ACTIVE
state leaves the cached previous analysis, previous topology counts and
complaint timestamp populated — they are not reset to none. -/
theorem c5_counterexample :
    exVitalizerLive.is_live = true ∧
    (vitalizer_execute exVitalizerLive exCheckerState).1.is_live = false ∧
    (vitalizer_execute exVitalizerLive exCheckerState).2.prevAnalysis ≠ none ∧
    (vitalizer_execute exVitalizerLive exCheckerState).2.prevTopologyCounts ≠ none ∧
    (vitalizer_execute exVitalizerLive exCheckerState).2.timeComplained ≠ none := by
  decide

/-- Claim C5 (amended): toggling ACTIVE → INACTIVE unsubscribes the handler
and clears only the displayed announcement header; the cached
previous_analysis, previous_topology_counts and complaint timestamp persist
unchanged. -/
theorem c5_amended (v : VitalizerState) (c : CheckerState) (h : v.is_live = true) :
    (vitalizer_execute v c).1.is_live = false ∧
    (vitalizer_execute v c).1.subscribed = false ∧
    (vitalizer_execute v c).2 = { c with header := none } := by
  simp [vitalizer_execute, h]

/-- Witness for the amended C5 at a concrete populated state. -/
theorem c5_amended_witness :
    (vitalizer_execute exVitalizerLive exCheckerState).1.is_live = false ∧
    (vitalizer_execute exVitalizerLive exCheckerState).1.subscribed = false ∧
    (vitalizer_execute exVitalizerLive exCheckerState).2 =
      { exCheckerState with header := none } :=
  c5_amended exVitalizerLive exCheckerState rfl

/-- Claim C6: while ACTIVE, a notification outside an edit-mode mesh session
is a strict no-op; otherwise the analysis pass runs exactly when no topology
counts are cached or the current ones differ, and a pass updates both caches
unconditionally while announcing (and stamping the time) only when the diff
is non-none; when no pass runs only the announcement-timeout housekeeping
happens. -/
theorem c6_continuous_check (s : CheckerState) (inp : CheckInput) :
    (inp.isEditMode = false → checker_check s inp = s) ∧
    (inp.isEditMode = true →
      (¬(s.prevTopologyCounts = none ∨ ¬some (topology_counts inp.mesh) = s.prevTopologyCounts) →
        checker_check s inp = timeoutStep s inp.now) ∧
      ((s.prevTopologyCounts = none ∨ ¬some (topology_counts inp.mesh) = s.prevTopologyCounts) →
        (∀ msg : String,
          diff_analyses s.prevAnalysis
              (some (find_problems inp.mesh inp.enabled).analysis) = some msg →
          checker_check s inp =
            { s with
              header := some ("MeshLint: " ++ msg),
              timeComplained := some inp.now,
              prevTopologyCounts := some (topology_counts inp.mesh),
              prevAnalysis := some (find_problems inp.mesh inp.enabled).analysis }) ∧
        (diff_analyses s.prevAnalysis
            (some (find_problems inp.mesh inp.enabled).analysis) = none →
          checker_check s inp =
            timeoutStep { s with
              prevTopologyCounts := some (topology_counts inp.mesh),
              prevAnalysis := some (find_problems inp.mesh inp.enabled).analysis } inp.now))) := by
  refine ⟨fun h => ?_, fun h => ⟨fun hng => ?_, fun hg => ⟨fun msg hmsg => ?_, fun hnone => ?_⟩⟩⟩
  · simp [checker_check, h]
  · simp [checker_check, h, hng]
  · simp only [checker_check, h, Bool.not_true, Bool.false_eq_true, if_false, if_pos hg, hmsg]
    simp [timeoutStep, COMPLAINT_TIMEOUT, Nat.sub_self]
  · simp only [checker_check, h, Bool.not_true, Bool.false_eq_true, if_false, if_pos hg, hnone]

/-- Witness for C6: a first notification in edit mode on an empty mesh runs
a pass (nothing cached), the diff is none, and the caches get populated. -/
theorem c6_continuous_check_witness :
    (exInput.isEditMode = true ∧
     (exStateEmpty.prevTopologyCounts = none ∨
       ¬some (topology_counts exInput.mesh) = exStateEmpty.prevTopologyCounts) ∧
     diff_analyses exStateEmpty.prevAnalysis
       (some (find_problems exInput.mesh exInput.enabled).analysis) = none) ∧
    checker_check exStateEmpty exInput =
      timeoutStep { exStateEmpty with
        prevTopologyCounts := some (topology_counts exInput.mesh),
        prevAnalysis := some (find_problems exInput.mesh exInput.enabled).analysis }
        exInput.now :=
  ⟨⟨rfl, Or.inl rfl, by decide⟩,
   (((c6_continuous_check exStateEmpty exInput).2 rfl).2 (Or.inl rfl)).2 (by decide)⟩

end MeshLint
